import Mathlib

/-!
Verification of the argocdsyncer reconciliation controller
(`controllers/application_controller.go`).

The controller is shallowly embedded: an `Application` record mirrors the
fields of `appv1.Application` that the controller reads or writes, the
Kubernetes client is an oracle (`Env`) supplying the result of each store
call, and every controller function returns, next to its Go `error` result,
the ordered trace of store operations it issued.  The flow of each Go
function — including the exact shape of its error checks — is translated
statement by statement.
-/

namespace ArgoCDSyncer

/-- Store faults, modelling the Go `error` results of client calls.
`notFound` models errors for which `kerrors.IsNotFound` is true;
`validation` models the plain `errors.New` value produced by `validate`
(never a NotFound); `conflict` and `unavailable` model the other store
faults (stale resource-version, transient I/O failure). -/
inductive Fault where
  | notFound
  | conflict
  | unavailable
  | validation
  deriving DecidableEq, Repr

/-- Go `kerrors.IsNotFound`. -/
def isNotFound : Fault → Bool
  | .notFound => true
  | _ => false

/-- Go `client.IgnoreNotFound`: the identity on every error except a
NotFound, which it maps to nil. -/
def ignoreNotFound : Option Fault → Option Fault
  | none => none
  | some e => if isNotFound e then none else some e

/-- `appv1.ApplicationDestination`: the controller only reads `.Namespace`;
`server` and `name` are carried along verbatim. -/
structure AppDestination where
  server : String
  ns : String
  name : String
  deriving DecidableEq, Repr

/-- `appv1.ApplicationSpec`.  `destination` is the only field the controller
inspects; `source`, `project` and `rest` stand for the remaining
application-defined fields, compared (as the whole structure) with
`reflect.DeepEqual`, which this embedding renders as decidable structural
equality. -/
structure AppSpec where
  source : String
  destination : AppDestination
  project : String
  rest : String
  deriving DecidableEq, Repr

/-- `appv1.Application`: the fields of TypeMeta/ObjectMeta/Spec that the
controller reads or writes.  `ns` is the Go `Namespace` field;
`deletionTimestamp` is `none` exactly when the Go deletion timestamp is nil. -/
structure Application where
  apiVersion : String
  kind : String
  name : String
  ns : String
  labels : List (String × String)
  annotations : List (String × String)
  finalizers : List String
  resourceVersion : String
  deletionTimestamp : Option String
  spec : AppSpec
  deriving DecidableEq, Repr

/-- The zero value `appv1.Application{}`, the state of the local `app`
variable in `createOrUpdateApplication` when the Get call fails. -/
def zeroApplication : Application :=
  { apiVersion := ""
    kind := ""
    name := ""
    ns := ""
    labels := []
    annotations := []
    finalizers := []
    resourceVersion := ""
    deletionTimestamp := none
    spec := { source := "", destination := { server := "", ns := "", name := "" },
              project := "", rest := "" } }

/-- `controllerutil.ContainsFinalizer`. -/
def containsFinalizer (resource : Application) (f : String) : Bool :=
  resource.finalizers.contains f

/-- `controllerutil.AddFinalizer`: appends `f` unless already present. -/
def addFinalizer (resource : Application) (f : String) : Application :=
  if containsFinalizer resource f then resource
  else { resource with finalizers := resource.finalizers ++ [f] }

/-- `controllerutil.RemoveFinalizer`: removes every occurrence of `f`. -/
def removeFinalizer (resource : Application) (f : String) : Application :=
  { resource with finalizers := resource.finalizers.filter (fun x => x != f) }

/-- Package-level `defaultFinalizer` (the controller's own marker). -/
def defaultFinalizer : String := "argoproj.io/finalizer"

/-- Package-level `argoFinalizer` (the externally-owned marker). -/
def argoFinalizer : String := "resources-finalizer.argocd.argoproj.io"

/-- A store operation issued by the controller, with its full payload.
`getMirror` is the read of the existing mirror at (name, namespace);
`create`, `update` and `delete` carry the object passed to the client. -/
inductive Op where
  | getMirror (name : String) (ns : String)
  | create (payload : Application)
  | update (payload : Application)
  | delete (payload : Application)
  deriving DecidableEq, Repr

/-- Oracle for the Kubernetes client: the result each store call would
return, as a function of the request.  `getMirror` answers the Synchronizer's
lookup of the existing mirror; the other three give the `error` result of
the corresponding write call. -/
structure Env where
  getMirror : String → String → Except Fault Application
  createRes : Application → Option Fault
  updateRes : Application → Option Fault
  deleteRes : Application → Option Fault

/-- `generateApplication`: the desired mirror computed from the source, with
the namespace replaced by `ns` and everything else copied verbatim.  The Go
function also returns an `error` that is always nil, which the embedding
drops.  The Go composite literal leaves Finalizers, ResourceVersion and
DeletionTimestamp at their zero values. -/
def generateApplication (resource : Application) (ns : String) : Application :=
  { apiVersion := resource.apiVersion
    kind := resource.kind
    name := resource.name
    ns := ns
    labels := resource.labels
    annotations := resource.annotations
    finalizers := []
    resourceVersion := ""
    deletionTimestamp := none
    spec := resource.spec }

/-- `hasDefaultFinalizer`. -/
def hasDefaultFinalizer (resource : Application) : Bool :=
  containsFinalizer resource defaultFinalizer

/-- `hasArgoFinalizer`. -/
def hasArgoFinalizer (resource : Application) : Bool :=
  containsFinalizer resource argoFinalizer

/-- `InjectDefaultFinalizer`: adds the own marker and issues the persisting
update, returning that update's result. -/
def InjectDefaultFinalizer (env : Env) (resource : Application) :
    Option Fault × List Op :=
  let r1 := addFinalizer resource defaultFinalizer
  (env.updateRes r1, [Op.update r1])

/-- `finalize`: builds the mirror identity with `generateApplication` and
issues the delete, returning the delete's result unchanged. -/
def finalize (env : Env) (resource : Application) (target : String) :
    Option Fault × List Op :=
  let desired := generateApplication resource target
  (env.deleteRes desired, [Op.delete desired])

/-- `processDefaultFinalization`: when the own marker is present, runs the
finalization callback, then removes the own marker and persists, then — if
the argo marker is present on the (locally mutated) resource — removes it
and persists a second time.  Each error check returns early exactly as the
Go code does.  Without the own marker it only logs and returns nil. -/
def processDefaultFinalization (env : Env) (resource : Application)
    (target : String) : Option Fault × List Op :=
  if containsFinalizer resource defaultFinalizer then
    match finalize env resource target with
    | (some e, tr) => (some e, tr)
    | (none, tr) =>
      let r1 := removeFinalizer resource defaultFinalizer
      let tr1 := tr ++ [Op.update r1]
      match env.updateRes r1 with
      | some e => (some e, tr1)
      | none =>
        if hasArgoFinalizer r1 then
          let r2 := removeFinalizer r1 argoFinalizer
          (env.updateRes r2, tr1 ++ [Op.update r2])
        else
          (none, tr1)
  else
    (none, [])

/-- `validate`: rejects a resource whose `Spec.Destination.Namespace`
differs from its own namespace, with a plain (non-NotFound) error. -/
def validate (resource : Application) : Option Fault :=
  if resource.spec.destination.ns != resource.ns then some Fault.validation
  else none

/-- The desired mirror assembled at the head of `createOrUpdateApplication`:
`generateApplication` followed by `AddFinalizer(desired, argoFinalizer)`
when the source carries the argo marker. -/
def desiredApplication (resource : Application) (target : String) : Application :=
  let d := generateApplication resource target
  if hasArgoFinalizer resource then addFinalizer d argoFinalizer else d

/-- `createOrUpdateApplication`: looks up the existing mirror at
(desired.name, desired.ns).  The Go branch structure is
`if err != nil && kerrors.IsNotFound(err) { create } else { compare and
update }`: only a NotFound from the Get selects the create branch; every
other outcome — success, or a non-NotFound fault, which leaves `app` at its
zero value — falls into the else branch, which compares specs with
`reflect.DeepEqual` and, when they differ, copies the resource-version from
`app` and issues one update. -/
def createOrUpdateApplication (env : Env) (resource : Application)
    (target : String) : Option Fault × List Op :=
  let desired := desiredApplication resource target
  let getRes := env.getMirror desired.name desired.ns
  let isNF := match getRes with
    | .error e => isNotFound e
    | .ok _ => false
  let app := match getRes with
    | .error _ => zeroApplication
    | .ok a => a
  if isNF then
    (env.createRes desired, [Op.getMirror desired.name desired.ns, Op.create desired])
  else
    if app.spec != desired.spec then
      let desired2 := { desired with resourceVersion := app.resourceVersion }
      (env.updateRes desired2,
        [Op.getMirror desired.name desired.ns, Op.update desired2])
    else
      (none, [Op.getMirror desired.name desired.ns])

/-- `Reconcile`: the entry point, with the initial fetch's result passed in
as `fetched`.  Translates the Go control flow literally: NotFound on fetch
ends the cycle with nil; the guard ignores resources in the target
namespace; the deletion branch runs `processDefaultFinalization`; a live
resource without the own marker gets it injected and the cycle ends; then
validation, then the Synchronizer.  Every error is passed through
`client.IgnoreNotFound` before being returned. -/
def Reconcile (fetched : Except Fault Application) (env : Env)
    (target : String) : Option Fault × List Op :=
  match fetched with
  | .error e =>
    if isNotFound e then (none, [])
    else (ignoreNotFound (some e), [])
  | .ok desiredResource =>
    if desiredResource.ns == target then (none, [])
    else
      let deleted := desiredResource.deletionTimestamp.isSome
      if deleted then
        match processDefaultFinalization env desiredResource target with
        | (some e, tr) => (ignoreNotFound (some e), tr)
        | (none, tr) => (none, tr)
      else if !hasDefaultFinalizer desiredResource then
        match InjectDefaultFinalizer env desiredResource with
        | (some e, tr) => (ignoreNotFound (some e), tr)
        | (none, tr) => (none, tr)
      else
        match validate desiredResource with
        | some e => (ignoreNotFound (some e), [])
        | none =>
          match createOrUpdateApplication env desiredResource target with
          | (some e, tr) => (ignoreNotFound (some e), tr)
          | (none, tr) => (none, tr)

/-! Concrete fixtures used by the witnesses and counterexamples. -/

/-- A destination colocated with namespace `team-a`. -/
def sampleDest : AppDestination :=
  { server := "https://kubernetes.default.svc", ns := "team-a", name := "" }

/-- A specification whose destination namespace is `team-a`. -/
def sampleSpec : AppSpec :=
  { source := "repoA", destination := sampleDest, project := "default", rest := "" }

/-- A second specification, structurally different from `sampleSpec`. -/
def sampleSpecB : AppSpec :=
  { sampleSpec with source := "repoB" }

/-- A live source in `team-a` carrying the own marker, passing validation. -/
def sampleLive : Application :=
  { apiVersion := "argoproj.io/v1alpha1"
    kind := "Application"
    name := "foo"
    ns := "team-a"
    labels := [("team", "a")]
    annotations := [("note", "demo")]
    finalizers := [defaultFinalizer]
    resourceVersion := "7"
    deletionTimestamp := none
    spec := sampleSpec }

/-- `sampleLive` with its deletion marker set. -/
def sampleDeleting : Application :=
  { sampleLive with deletionTimestamp := some "2026-10-11T00:00:00Z" }

/-- `sampleDeleting` carrying both the own marker and the argo marker. -/
def sampleDeletingBoth : Application :=
  { sampleDeleting with finalizers := [defaultFinalizer, argoFinalizer] }

/-- A deleting source that no longer carries the own marker but still
carries the argo marker. -/
def sampleDeletingUnmarked : Application :=
  { sampleDeleting with finalizers := [argoFinalizer] }

/-- A live source in `team-a` whose spec points at `team-b`: fails
validation. -/
def sampleMismatch : Application :=
  { sampleLive with
      spec := { sampleSpec with destination := { sampleDest with ns := "team-b" } } }

/-- A source without the own marker (brand-new live resource). -/
def sampleUnmarked : Application :=
  { sampleLive with finalizers := [] }

/-- A source whose namespace is already the target namespace `argocd`. -/
def sampleInTarget : Application :=
  { sampleLive with ns := "argocd" }

/-- An existing mirror that was granted the argo marker after creation (the
source never carried it) and whose spec differs from the source's. -/
def mirrorWithArgo : Application :=
  { generateApplication sampleLive "argocd" with
      finalizers := [argoFinalizer]
      resourceVersion := "5"
      spec := sampleSpecB }

/-- A store that answers NotFound to the mirror lookup and success to every
write. -/
def constEnv : Env :=
  { getMirror := fun _ _ => .error .notFound
    createRes := fun _ => none
    updateRes := fun _ => none
    deleteRes := fun _ => none }

/-- A store in which the mirror is already absent: every delete fails with
NotFound; writes otherwise succeed. -/
def envMirrorAbsent : Env :=
  { constEnv with deleteRes := fun _ => some .notFound }

/-- A store whose mirror lookup fails with a transient, non-NotFound fault. -/
def envGetFault : Env :=
  { constEnv with getMirror := fun _ _ => .error .unavailable }

/-- A store holding `mirrorWithArgo` as the existing mirror. -/
def envMirrorWithArgo : Env :=
  { constEnv with getMirror := fun _ _ => .ok mirrorWithArgo }

/-- A store holding a mirror whose spec already equals the desired spec. -/
def envMirrorEqual : Env :=
  { constEnv with getMirror := fun _ _ => .ok (generateApplication sampleLive "argocd") }

/-! Helper lemmas. -/

/-- Removing one finalizer does not change membership of a different one. -/
theorem containsFinalizer_removeFinalizer_ne (s : Application) (f g : String)
    (h : g ≠ f) :
    containsFinalizer (removeFinalizer s f) g = containsFinalizer s g := by
  simp [containsFinalizer, removeFinalizer, List.mem_filter, h]

/-- The desired mirror is `generateApplication` with the argo marker as its
only finalizer exactly when the source carries the argo marker. -/
theorem desiredApplication_eq (s : Application) (t : String) :
    desiredApplication s t =
      { generateApplication s t with
          finalizers := if hasArgoFinalizer s then [argoFinalizer] else [] } := by
  unfold desiredApplication addFinalizer
  cases h : hasArgoFinalizer s <;>
    simp [h, generateApplication, containsFinalizer]

theorem desiredApplication_name (s : Application) (t : String) :
    (desiredApplication s t).name = s.name := by
  rw [desiredApplication_eq]; rfl

theorem desiredApplication_ns (s : Application) (t : String) :
    (desiredApplication s t).ns = t := by
  rw [desiredApplication_eq]; rfl

theorem desiredApplication_spec (s : Application) (t : String) :
    (desiredApplication s t).spec = s.spec := by
  rw [desiredApplication_eq]; rfl

/-! Claims. -/

/-- Claim C6: a SourceResource whose namespace equals the configured target
namespace is ignored: `Reconcile` returns success with an empty operation
trace, so no finalizer write, no validation outcome and no mirror
create/update/delete can occur, and the guard fires before any finalizer or
spec logic (whatever the deletion or marker state of the resource). -/
theorem C6_target_namespace_ignored (env : Env) (target : String)
    (s : Application) (h : s.ns = target) :
    Reconcile (.ok s) env target = (none, []) := by
  simp [Reconcile, h]

theorem C6_target_namespace_ignored_witness :
    sampleInTarget.ns = "argocd" ∧
    Reconcile (.ok sampleInTarget) constEnv "argocd" = (none, []) :=
  ⟨rfl, C6_target_namespace_ignored constEnv "argocd" sampleInTarget rfl⟩

/-- Claim C9: the desired MirroredResource is computed deterministically
(`desiredApplication` is a function of the source and the target namespace):
its namespace is the target namespace while name, spec, labels, annotations,
kind and API version are copied verbatim from the source, and it carries the
externally-owned marker (argo finalizer) if and only if the source carries
it at computation time. -/
theorem C9_desired_mirror_projection (resource : Application) (target : String) :
    (desiredApplication resource target).ns = target ∧
    (desiredApplication resource target).name = resource.name ∧
    (desiredApplication resource target).spec = resource.spec ∧
    (desiredApplication resource target).labels = resource.labels ∧
    (desiredApplication resource target).annotations = resource.annotations ∧
    (desiredApplication resource target).kind = resource.kind ∧
    (desiredApplication resource target).apiVersion = resource.apiVersion ∧
    containsFinalizer (desiredApplication resource target) argoFinalizer =
      containsFinalizer resource argoFinalizer := by
  rw [desiredApplication_eq]
  cases h : hasArgoFinalizer resource <;>
    simp_all [generateApplication, containsFinalizer, hasArgoFinalizer]

/-- Claim C10: a deleting SourceResource that lacks the own marker takes the
idempotent no-op branch of `processDefaultFinalization`: success is
reported and the operation trace is empty, so no store write is issued at
all and in particular an external marker still present on the source is left
in place. -/
theorem C10_gone_state_noop (env : Env) (target : String) (s : Application)
    (h : containsFinalizer s defaultFinalizer = false) :
    processDefaultFinalization env s target = (none, []) := by
  simp [processDefaultFinalization, h]

theorem C10_gone_state_noop_witness :
    containsFinalizer sampleDeletingUnmarked defaultFinalizer = false ∧
    containsFinalizer sampleDeletingUnmarked argoFinalizer = true ∧
    processDefaultFinalization constEnv sampleDeletingUnmarked "argocd" = (none, []) :=
  ⟨rfl, rfl, C10_gone_state_noop constEnv "argocd" sampleDeletingUnmarked rfl⟩

/-- Claim C7: a live SourceResource outside the target namespace that lacks
the own marker gets exactly one store operation this cycle — the update that
persists the source with the own marker appended — and the cycle ends there:
no validation outcome, no mirror lookup and no mirror creation happen in the
same cycle, so the mirror can only be created on a subsequent cycle. -/
theorem C7_finalizer_injection_first_cycle (env : Env) (target : String)
    (s : Application) (hns : (s.ns == target) = false)
    (hlive : s.deletionTimestamp = none)
    (hno : containsFinalizer s defaultFinalizer = false) :
    Reconcile (.ok s) env target =
      (ignoreNotFound (env.updateRes (addFinalizer s defaultFinalizer)),
        [Op.update (addFinalizer s defaultFinalizer)]) ∧
    ∀ p, Op.create p ∉ (Reconcile (.ok s) env target).2 := by
  have heq : Reconcile (.ok s) env target =
      (ignoreNotFound (env.updateRes (addFinalizer s defaultFinalizer)),
        [Op.update (addFinalizer s defaultFinalizer)]) := by
    cases h : env.updateRes (addFinalizer s defaultFinalizer) with
    | none =>
      simp [Reconcile, hns, hlive, hasDefaultFinalizer, hno,
        InjectDefaultFinalizer, h, ignoreNotFound]
    | some e =>
      simp [Reconcile, hns, hlive, hasDefaultFinalizer, hno,
        InjectDefaultFinalizer, h, ignoreNotFound]
  refine ⟨heq, ?_⟩
  rw [heq]
  intro p
  simp

theorem C7_finalizer_injection_first_cycle_witness :
    ((sampleUnmarked.ns == "argocd") = false ∧
      sampleUnmarked.deletionTimestamp = none ∧
      containsFinalizer sampleUnmarked defaultFinalizer = false) ∧
    Reconcile (.ok sampleUnmarked) constEnv "argocd" =
      (ignoreNotFound (constEnv.updateRes (addFinalizer sampleUnmarked defaultFinalizer)),
        [Op.update (addFinalizer sampleUnmarked defaultFinalizer)]) ∧
    ∀ p, Op.create p ∉ (Reconcile (.ok sampleUnmarked) constEnv "argocd").2 :=
  ⟨⟨rfl, rfl, rfl⟩,
    C7_finalizer_injection_first_cycle constEnv "argocd" sampleUnmarked rfl rfl rfl⟩

/-- Claim C1: for a SourceResource whose deletion marker is set and that
carries the own marker, the finalization path issues its store operations in
strict order — first the delete of the mirror, then the update removing the
own marker, then (only when the external marker is present on the source and
the previous write succeeded) the update removing the external marker — and
when the mirror delete fails the trace stops at the delete, so the
own-marker-removing update is never issued before the delete has
succeeded. -/
theorem C1_finalization_strict_order (env : Env) (target : String)
    (s : Application) (hns : (s.ns == target) = false)
    (hdel : s.deletionTimestamp.isSome = true)
    (hown : containsFinalizer s defaultFinalizer = true) :
    (Reconcile (.ok s) env target).2 =
      Op.delete (generateApplication s target) ::
        (match env.deleteRes (generateApplication s target) with
          | some _ => []
          | none =>
            Op.update (removeFinalizer s defaultFinalizer) ::
              (match env.updateRes (removeFinalizer s defaultFinalizer) with
                | some _ => []
                | none =>
                  if containsFinalizer s argoFinalizer then
                    [Op.update
                      (removeFinalizer (removeFinalizer s defaultFinalizer) argoFinalizer)]
                  else [])) := by
  have hR : (Reconcile (.ok s) env target).2 =
      (processDefaultFinalization env s target).2 := by
    rcases h : processDefaultFinalization env s target with ⟨o, tr⟩
    cases o <;> simp [Reconcile, hns, hdel, h]
  rw [hR]
  have hpres : hasArgoFinalizer (removeFinalizer s defaultFinalizer) =
      containsFinalizer s argoFinalizer := by
    have hne : argoFinalizer ≠ defaultFinalizer := by decide
    simpa [hasArgoFinalizer] using
      containsFinalizer_removeFinalizer_ne s defaultFinalizer argoFinalizer hne
  cases hd : env.deleteRes (generateApplication s target) with
  | some e => simp [processDefaultFinalization, finalize, hown, hd]
  | none =>
    cases hu : env.updateRes (removeFinalizer s defaultFinalizer) with
    | some e => simp [processDefaultFinalization, finalize, hown, hd, hu]
    | none =>
      cases ha : containsFinalizer s argoFinalizer <;>
        simp [processDefaultFinalization, finalize, hown, hd, hu, hpres, ha]

theorem C1_finalization_strict_order_witness :
    ((sampleDeletingBoth.ns == "argocd") = false ∧
      sampleDeletingBoth.deletionTimestamp.isSome = true ∧
      containsFinalizer sampleDeletingBoth defaultFinalizer = true) ∧
    (Reconcile (.ok sampleDeletingBoth) constEnv "argocd").2 =
      [Op.delete (generateApplication sampleDeletingBoth "argocd"),
        Op.update (removeFinalizer sampleDeletingBoth defaultFinalizer),
        Op.update
          (removeFinalizer (removeFinalizer sampleDeletingBoth defaultFinalizer)
            argoFinalizer)] :=
  ⟨⟨rfl, rfl, rfl⟩, by
    simpa [constEnv] using
      C1_finalization_strict_order constEnv "argocd" sampleDeletingBoth rfl rfl rfl⟩

/-- Claim C8: when the mirror already exists, `createOrUpdateApplication`
compares the existing spec against the desired spec with the structural
equality standing for `reflect.DeepEqual`: when equal it issues no store
write (the trace holds only the read), and when different it issues exactly
one update whose payload spec equals the desired spec computed from the
source and whose resource-version is copied from the existing mirror. -/
theorem C8_sync_noop_or_single_update (env : Env) (target : String)
    (s : Application) (app : Application)
    (hget : env.getMirror s.name target = .ok app) :
    (app.spec = s.spec →
      createOrUpdateApplication env s target =
        (none, [Op.getMirror s.name target])) ∧
    (app.spec ≠ s.spec →
      createOrUpdateApplication env s target =
        (env.updateRes
            { desiredApplication s target with resourceVersion := app.resourceVersion },
          [Op.getMirror s.name target,
            Op.update
              { desiredApplication s target with
                  resourceVersion := app.resourceVersion }]) ∧
      ({ desiredApplication s target with
          resourceVersion := app.resourceVersion }).spec = s.spec) := by
  have hn := desiredApplication_name s target
  have hns2 := desiredApplication_ns s target
  have hsp := desiredApplication_spec s target
  constructor
  · intro he
    simp [createOrUpdateApplication, hn, hns2, hget, hsp, he]
  · intro hne
    refine ⟨?_, by simp [hsp]⟩
    simp [createOrUpdateApplication, hn, hns2, hget, hsp, hne]

theorem C8_sync_noop_or_single_update_witness :
    envMirrorWithArgo.getMirror sampleLive.name "argocd" = .ok mirrorWithArgo ∧
    mirrorWithArgo.spec ≠ sampleLive.spec ∧
    createOrUpdateApplication envMirrorWithArgo sampleLive "argocd" =
      (envMirrorWithArgo.updateRes
          { desiredApplication sampleLive "argocd" with
              resourceVersion := mirrorWithArgo.resourceVersion },
        [Op.getMirror sampleLive.name "argocd",
          Op.update
            { desiredApplication sampleLive "argocd" with
                resourceVersion := mirrorWithArgo.resourceVersion }]) :=
  ⟨rfl, by decide,
    ((C8_sync_noop_or_single_update envMirrorWithArgo "argocd" sampleLive
        mirrorWithArgo rfl).2 (by decide)).1⟩

/-- Claim C2 (code behaviour at the failing input): when the mirror is
already absent — the store answers NotFound to the delete — finalization of
a deleting source carrying the own marker does NOT proceed: `finalize`
returns the NotFound fault, `processDefaultFinalization` aborts with it
after the delete, no update removing the own marker is issued in the cycle,
and `Reconcile` then swallows the fault through `client.IgnoreNotFound`,
reporting success while the own marker is still in place. -/
theorem C2_absent_mirror_aborts_finalization :
    processDefaultFinalization envMirrorAbsent sampleDeleting "argocd" =
      (some Fault.notFound,
        [Op.delete (generateApplication sampleDeleting "argocd")]) ∧
    Reconcile (.ok sampleDeleting) envMirrorAbsent "argocd" =
      (none, [Op.delete (generateApplication sampleDeleting "argocd")]) ∧
    ∀ p, Op.update p ∉ (Reconcile (.ok sampleDeleting) envMirrorAbsent "argocd").2 := by
  have h2 : Reconcile (.ok sampleDeleting) envMirrorAbsent "argocd" =
      (none, [Op.delete (generateApplication sampleDeleting "argocd")]) := by
    decide
  refine ⟨by decide, h2, ?_⟩
  intro p
  rw [h2]
  simp

/-- Claim C3 counterexample: at a concrete live source carrying the own
marker whose spec destination namespace (`team-b`) differs from its own
namespace (`team-a`), `Reconcile` does NOT end the cycle fault-free: it
returns the validation fault upward (because `client.IgnoreNotFound` passes
every non-NotFound error through), refuting the claim that validation
failure is never propagated. -/
theorem C3_validation_fault_propagates_cex :
    (Reconcile (.ok sampleMismatch) constEnv "argocd").1 = some Fault.validation := by
  decide

/-- Claim C3 as amended: for every live SourceResource outside the target
namespace carrying the own marker whose spec declares a destination
namespace different from its own, the cycle ends without any store
operation (no mirroring), but the validation fault IS returned upward to
the invoking framework, since `IgnoreNotFound` only swallows NotFound
faults. -/
theorem C3_validation_fault_propagated (env : Env) (target : String)
    (s : Application) (hns : (s.ns == target) = false)
    (hlive : s.deletionTimestamp = none)
    (hown : containsFinalizer s defaultFinalizer = true)
    (hbad : (s.spec.destination.ns != s.ns) = true) :
    Reconcile (.ok s) env target = (some Fault.validation, []) := by
  simp [Reconcile, hns, hlive, hasDefaultFinalizer, hown, validate, hbad,
    ignoreNotFound, isNotFound]

theorem C3_validation_fault_propagated_witness :
    ((sampleMismatch.ns == "argocd") = false ∧
      sampleMismatch.deletionTimestamp = none ∧
      containsFinalizer sampleMismatch defaultFinalizer = true ∧
      (sampleMismatch.spec.destination.ns != sampleMismatch.ns) = true) ∧
    Reconcile (.ok sampleMismatch) constEnv "argocd" = (some Fault.validation, []) :=
  ⟨⟨rfl, rfl, rfl, rfl⟩,
    C3_validation_fault_propagated constEnv "argocd" sampleMismatch rfl rfl rfl rfl⟩

/-- Claim C4 (code behaviour at the failing input): when the Synchronizer's
lookup of the existing mirror fails with a non-NotFound fault
(`unavailable`), `createOrUpdateApplication` does NOT return that fault: the
Go branch `if err != nil && IsNotFound(err)` sends every non-NotFound
outcome into the else branch, where the zero-valued `app` compares unequal
to the desired spec, so the controller issues an update (carrying the empty
resource-version copied from the zero value) and reports the update's
success instead of the lookup fault. -/
theorem C4_nonNotFound_get_fault_swallowed :
    createOrUpdateApplication envGetFault sampleLive "argocd" =
      (none,
        [Op.getMirror "foo" "argocd",
          Op.update (desiredApplication sampleLive "argocd")]) ∧
    (createOrUpdateApplication envGetFault sampleLive "argocd").1 ≠
      some Fault.unavailable := by
  constructor
  · decide
  · decide

/-- Claim C5 (code behaviour at the failing input): the existing mirror
carries the externally-owned argo marker (granted after creation — the
source never carried it) and its spec differs from the desired one; the
single update the controller issues is a full-object write whose finalizer
list is derived from the source alone and is therefore empty, so the update
does not target only the specification: it carries a wholesale marker set
that omits the mirror's argo marker, which a replace-style store update
erases. -/
theorem C5_update_overwrites_mirror_markers :
    containsFinalizer mirrorWithArgo argoFinalizer = true ∧
    containsFinalizer sampleLive argoFinalizer = false ∧
    createOrUpdateApplication envMirrorWithArgo sampleLive "argocd" =
      (none,
        [Op.getMirror "foo" "argocd",
          Op.update
            { desiredApplication sampleLive "argocd" with resourceVersion := "5" }]) ∧
    ({ desiredApplication sampleLive "argocd" with
        resourceVersion := "5" }).finalizers = [] := by
  refine ⟨by decide, by decide, by decide, by decide⟩

end ArgoCDSyncer
